import Mathlib

set_option linter.unusedVariables false
set_option linter.unnecessarySeqFocus false
set_option linter.unreachableTactic false
set_option linter.unusedTactic false

/-!
Verification of the Rho/myosin ODE integrator (RhoMyosin.cpp).

The development shallowly embeds the program's three pieces over the reals:
the layered derivative evaluator (rhsCaMKII → rhsArp23 → rhsCofilin →
rhsActin → rhs), the adaptive Bogacki-Shampine stepper, and the driving
integration loop with its periodic sampling.  Machine doubles are idealized
as real numbers; the in-out derivative buffer of the C++ evaluator is an
explicit function argument, and each layer is a function transforming that
buffer (direct assignment ignores the incoming slot, `+=` adds to it).
-/

noncomputable section

/-- The 46 chemical species, in the order of the C++ `Variables` enum. -/
inductive Species where
  | Ca | CaM | CaCaM | Ng | NgCaM | CaMKII | Factin | CaMKIIFactin | Gactin
  | CaMKIIGactin | CaMKIIp | CaN | CaNact | I1 | I1act | PP1 | PP1act
  | Cdc42GEF | Cdc42GEFact | Cdc42GDP | Cdc42GTP | GAP | GAPact | WASP
  | WASPact | Arp23 | Arp23act
  | SSH1 | SSH1act | LIMK | LIMKact | Cofilin | Cofilinact
  | Fnewactin | B | Bp
  | RhoGEF | RhoGEFact | RhoGDP | RhoGTP | ROCK | ROCKact | MyoPpase
  | MyoPpaseact | MLC | MLCact
  deriving DecidableEq

/-- The integer value each enumerator has in the C++ `Variables` enum. -/
def Species.index : Species → ℕ
  | .Ca => 0 | .CaM => 1 | .CaCaM => 2 | .Ng => 3 | .NgCaM => 4 | .CaMKII => 5
  | .Factin => 6 | .CaMKIIFactin => 7 | .Gactin => 8 | .CaMKIIGactin => 9
  | .CaMKIIp => 10 | .CaN => 11 | .CaNact => 12 | .I1 => 13 | .I1act => 14
  | .PP1 => 15 | .PP1act => 16 | .Cdc42GEF => 17 | .Cdc42GEFact => 18
  | .Cdc42GDP => 19 | .Cdc42GTP => 20 | .GAP => 21 | .GAPact => 22
  | .WASP => 23 | .WASPact => 24 | .Arp23 => 25 | .Arp23act => 26
  | .SSH1 => 27 | .SSH1act => 28 | .LIMK => 29 | .LIMKact => 30
  | .Cofilin => 31 | .Cofilinact => 32 | .Fnewactin => 33 | .B => 34
  | .Bp => 35 | .RhoGEF => 36 | .RhoGEFact => 37 | .RhoGDP => 38
  | .RhoGTP => 39 | .ROCK => 40 | .ROCKact => 41 | .MyoPpase => 42
  | .MyoPpaseact => 43 | .MLC => 44 | .MLCact => 45

/-- Number of state variables (`nvar` in the source). -/
def nvar : ℕ := 46

/-- All species in enum order, mirroring the index range `0 ≤ i < nvar`
of the C++ loops. -/
def speciesList : List Species :=
  [.Ca, .CaM, .CaCaM, .Ng, .NgCaM, .CaMKII, .Factin, .CaMKIIFactin, .Gactin,
   .CaMKIIGactin, .CaMKIIp, .CaN, .CaNact, .I1, .I1act, .PP1, .PP1act,
   .Cdc42GEF, .Cdc42GEFact, .Cdc42GDP, .Cdc42GTP, .GAP, .GAPact, .WASP,
   .WASPact, .Arp23, .Arp23act, .SSH1, .SSH1act, .LIMK, .LIMKact, .Cofilin,
   .Cofilinact, .Fnewactin, .B, .Bp, .RhoGEF, .RhoGEFact, .RhoGDP, .RhoGTP,
   .ROCK, .ROCKact, .MyoPpase, .MyoPpaseact, .MLC, .MLCact]

/-- A state or derivative vector: one real number per species. -/
def Vec : Type := Species → ℝ

/-- The all-zero vector; a freshly value-initialized `std::vector<double>`. -/
def zeroVec : Vec := fun _ => 0

/-- Parameters of the integration algorithm (file-scope constants). -/
def tEnd : ℝ := 300.0

/-- Initial step size `dt0`. -/
def dt0 : ℝ := 0.01

/-- Time interval between data points `dtsav`. -/
def dtsav : ℝ := 0.1

/-- Acceptable local error `tolerance`. -/
def tolerance : ℝ := 1.0e-6

/-! ### Reaction fluxes of the CaMKII layer (`rhsCaMKII`) -/

def camkiiV1 (x : Vec) : ℝ := 7.75 * x .Ca ^ 3 - x .CaCaM
def camkiiV2 (x : Vec) : ℝ := 5.0 * x .Ng * x .CaM - x .NgCaM
def camkiiV3 (x : Vec) : ℝ := x .CaMKII * x .Factin - 4.0 * x .CaMKIIFactin
def camkiiV4 (x : Vec) : ℝ := x .CaMKII * x .Gactin - 4.0 * x .CaMKIIGactin
def camkiiV5 (x : Vec) : ℝ :=
  120.0 * x .CaCaM ^ 4 * x .CaMKII / ((4.0 : ℝ) ^ 4 + x .CaCaM ^ 4) +
    x .CaMKIIp * x .CaMKII / (10.0 + x .CaMKII)
def camkiiV6 (x : Vec) : ℝ := 15.0 * x .PP1act * x .CaMKIIp / (3.0 + x .CaMKIIp)
def camkiiV7 (x : Vec) : ℝ :=
  127.0 * x .CaCaM ^ 4 * x .CaN / ((0.34 : ℝ) ^ 4 + x .CaCaM ^ 4)
def camkiiV8 (x : Vec) : ℝ := 0.34 * x .CaMKIIp * x .CaN / (127.0 + x .CaN)
def camkiiV9 (x : Vec) : ℝ := 0.034 * x .CaNact * x .I1 / (4.97 + x .I1)
def camkiiV10 (x : Vec) : ℝ := 0.0688 * x .CaMKIIp * x .I1act / (127.0 + x .I1act)
def camkiiV11 (x : Vec) : ℝ :=
  50.0 * x .I1act * x .PP1 / (80.0 + x .PP1) + 2.0 * x .PP1act * x .PP1 / (80.0 + x .PP1)
def camkiiV12 (x : Vec) : ℝ := 0.07166 * x .CaMKIIp * x .PP1act / (4.97 + x .PP1act)

/-- First evaluator layer (`rhsCaMKII`): writes the 17 calcium/kinase slots,
leaves every other slot of the incoming buffer untouched. -/
def rhsCaMKII (t : ℝ) (x dxdt : Vec) : Vec := fun s =>
  match s with
  | .Ca => -3.0 * camkiiV1 x
  | .CaM => -camkiiV1 x - camkiiV2 x
  | .CaCaM => camkiiV1 x
  | .Ng => -camkiiV2 x
  | .NgCaM => camkiiV2 x
  | .CaMKII => -camkiiV3 x - camkiiV4 x - camkiiV5 x + camkiiV6 x
  | .Factin => -camkiiV3 x
  | .CaMKIIFactin => camkiiV3 x
  | .Gactin => -camkiiV4 x
  | .CaMKIIGactin => camkiiV4 x
  | .CaMKIIp => camkiiV5 x - camkiiV6 x
  | .CaN => -camkiiV7 x + camkiiV8 x
  | .CaNact => camkiiV7 x - camkiiV8 x
  | .I1 => -camkiiV9 x + camkiiV10 x
  | .I1act => camkiiV9 x - camkiiV10 x
  | .PP1 => -camkiiV11 x + camkiiV12 x
  | .PP1act => camkiiV11 x - camkiiV12 x
  | s => dxdt s

/-! ### Reaction fluxes of the Cdc42/Arp2/3 layer (`rhsArp23`) -/

def arpV1 (x : Vec) : ℝ := 0.01 * x .CaMKIIp * x .Cdc42GEF / (1.0 + x .Cdc42GEF)
def arpV2 (x : Vec) : ℝ := 0.01 * x .PP1act * x .Cdc42GEFact / (1.0 + x .Cdc42GEFact)
def arpV3 (x : Vec) : ℝ := 0.75 * x .Cdc42GEFact * x .Cdc42GDP / (1.0 + x .Cdc42GDP)
def arpV4 (x : Vec) : ℝ := 0.1 * x .GAPact * x .Cdc42GTP / (1.0 + x .Cdc42GTP)
def arpV5 (x : Vec) : ℝ := 0.01 * x .CaMKIIp * x .GAP / (1.0 + x .GAP)
def arpV6 (x : Vec) : ℝ := 0.01 * x .PP1act * x .GAPact / (1.0 + x .GAPact)
def arpV7 (x : Vec) : ℝ := 0.02 * x .Cdc42GTP * x .WASP - 0.001 * x .WASPact
def arpV8 (x : Vec) : ℝ := 0.1 * x .Arp23 * x .WASPact - 0.0 * x .Arp23act

/-- Second evaluator layer (`rhsArp23`): calls `rhsCaMKII` first, then writes
its ten slots. -/
def rhsArp23 (t : ℝ) (x dxdt : Vec) : Vec := fun s =>
  match s with
  | .Cdc42GEF => -arpV1 x + arpV2 x
  | .Cdc42GEFact => arpV1 x - arpV2 x
  | .Cdc42GDP => -arpV3 x + arpV4 x
  | .Cdc42GTP => arpV3 x - arpV4 x - arpV7 x
  | .GAP => -arpV5 x + arpV6 x
  | .GAPact => arpV5 x - arpV6 x
  | .WASP => -arpV7 x
  | .WASPact => arpV7 x - arpV8 x
  | .Arp23 => -arpV8 x
  | .Arp23act => arpV8 x
  | s => rhsCaMKII t x dxdt s

/-! ### Reaction fluxes of the cofilin layer (`rhsCofilin`) -/

def cofV1 (x : Vec) : ℝ := 0.34 * x .CaNact * x .SSH1 / (4.97 + x .SSH1)
def cofV2 (x : Vec) : ℝ := 127 * x .CaMKIIp * x .SSH1act / (0.34 + x .SSH1act)
def cofV3 (x : Vec) : ℝ := 0.9 * x .ROCKact * x .LIMK / (0.3 + x .LIMK)
def cofV4 (x : Vec) : ℝ := 0.34 * x .SSH1act * x .LIMKact / (4.0 + x .LIMKact)
def cofV5 (x : Vec) : ℝ := 0.34 * x .SSH1act * x .Cofilin / (4.0 + x .Cofilin)
def cofV6 (x : Vec) : ℝ := 0.34 * x .LIMKact * x .Cofilinact / (4.0 + x .Cofilinact)

/-- Third evaluator layer (`rhsCofilin`). -/
def rhsCofilin (t : ℝ) (x dxdt : Vec) : Vec := fun s =>
  match s with
  | .SSH1 => -cofV1 x + cofV2 x
  | .SSH1act => cofV1 x - cofV2 x
  | .LIMK => -cofV3 x + cofV4 x
  | .LIMKact => cofV3 x - cofV4 x
  | .Cofilin => -cofV5 x + cofV6 x
  | .Cofilinact => cofV5 x - cofV6 x
  | s => rhsArp23 t x dxdt s

/-! ### The actin/membrane layer (`rhsActin`) -/

def fsev (x : Vec) : ℝ := 0.1 * 0.0002 * x .Cofilinact ^ 4 * x .Factin / 0.0001
def fnuc (x : Vec) : ℝ :=
  15.3 * x .Arp23act * x .Factin * x .Gactin / (2.0 + x .Arp23act)
def vmb (x : Vec) : ℝ := 0.1 * x .Bp / (x .Bp + 10.0 * Real.exp (50.0 / x .Bp))
def actinV1 (x : Vec) : ℝ := 0.001 * x .Fnewactin
def actinV2 (x : Vec) : ℝ := fsev x + 0.1 * x .Factin + 0.01 * x .Factin
def actinV3 (x : Vec) : ℝ := fnuc x
def actinV4 (x : Vec) : ℝ := 106.0 * (fsev x + fnuc x) - 0.04 * x .B
def actinV5 (x : Vec) : ℝ := (0.1 - vmb x) * x .B - 0.04 * x .Bp

/-- Fourth evaluator layer (`rhsActin`): assigns `Fnewactin`, `B`, `Bp` and
accumulates (`+=`) into the `Factin`, `Gactin`, `Arp23act` slots already
assigned by earlier layers. -/
def rhsActin (t : ℝ) (x dxdt : Vec) : Vec := fun s =>
  match s with
  | .Fnewactin => -actinV1 x
  | .Factin => rhsCofilin t x dxdt .Factin + (actinV1 x - actinV2 x)
  | .Gactin => rhsCofilin t x dxdt .Gactin + (actinV2 x - actinV3 x)
  | .Arp23act => rhsCofilin t x dxdt .Arp23act + -actinV3 x
  | .B => actinV4 x
  | .Bp => actinV5 x
  | s => rhsCofilin t x dxdt s

/-! ### The Rho/myosin layer, the outermost evaluator (`rhs`) -/

/-- First Rho/myosin flux.  The source divides by `1.0 + RhoGEF` where
`RhoGEF` is the *enum constant* (value 36), not the state entry `x[RhoGEF]`. -/
def rhoV1 (x : Vec) : ℝ :=
  0.01 * x .CaMKIIp * x .RhoGEF / (1.0 + (Species.index .RhoGEF : ℝ))
def rhoV2 (x : Vec) : ℝ := 0.1 * x .PP1act * x .RhoGEFact / (1.0 + x .RhoGEFact)
def rhoV3 (x : Vec) : ℝ := 0.75 * x .RhoGEFact * x .RhoGDP / (1.0 + x .RhoGDP)
def rhoV4 (x : Vec) : ℝ := 0.1 * x .GAPact * x .RhoGTP / (1.0 + x .RhoGTP)
def rhoV5 (x : Vec) : ℝ := 0.02 * x .RhoGTP * x .ROCK - 0.001 * x .ROCKact
def rhoV6 (x : Vec) : ℝ :=
  0.01 * x .MyoPpase + 3.0 * x .MyoPpaseact * x .MyoPpase / (16.0 + x .MyoPpase)
def rhoV7 (x : Vec) : ℝ := 2.357 * x .ROCKact * x .MyoPpaseact / (0.1 + x .MyoPpaseact)
def rhoV8 (x : Vec) : ℝ := 0.01 * x .MLC + 1.8 * x .ROCKact * x .MLC / (2.47 + x .MLC)
def rhoV9 (x : Vec) : ℝ := 1.0 * x .MyoPpaseact * x .MLCact / (16.0 + x .MLCact)

/-- The full right-hand side of the ODE model (`rhs`): the Rho/myosin layer
on top of the four inner layers. -/
def rhs (t : ℝ) (x dxdt : Vec) : Vec := fun s =>
  match s with
  | .RhoGEF => -rhoV1 x + rhoV2 x
  | .RhoGEFact => rhoV1 x - rhoV2 x
  | .RhoGDP => -rhoV3 x + rhoV4 x
  | .RhoGTP => rhoV3 x - rhoV4 x - rhoV5 x
  | .ROCK => -rhoV5 x
  | .ROCKact => rhoV5 x
  | .MyoPpase => -rhoV6 x + rhoV7 x
  | .MyoPpaseact => rhoV6 x - rhoV7 x
  | .MLC => -rhoV8 x + rhoV9 x
  | .MLCact => rhoV8 x - rhoV9 x
  | s => rhsActin t x dxdt s

/-! ### The adaptive Bogacki-Shampine stepper -/

/-- Tuning constant `kdShrinkMax`: decrease step size by no more than this. -/
def kdShrinkMax : ℝ := 0.1

/-- Tuning constant `kdGrowMax`: increase step size by no more than this. -/
def kdGrowMax : ℝ := 1.2

/-- Safety factor `kdSafety` in adaptive step-size control. -/
def kdSafety : ℝ := 0.9

/-- Minimum step size `kdMinH`. -/
def kdMinH : ℝ := 1.0e-6

/-- The four by-reference parameters of `bogackiShampineStepper`:
current time, state, derivative at the current time, and step size. -/
structure StepState where
  t : ℝ
  x : Vec
  dxdt1 : Vec
  h : ℝ

/-- The stage-2 evaluation point `xtmp[i] = x[i] + 0.5*h*dxdt1[i]`. -/
def stage2State (s : StepState) : Vec := fun i => s.x i + 0.5 * s.h * s.dxdt1 i

/-- Stage-2 derivative `dxdt2`, evaluated at `t + 0.5*h` into a fresh
zero-initialized buffer. -/
def dxdt2v (s : StepState) : Vec := rhs (s.t + 0.5 * s.h) (stage2State s) zeroVec

/-- The stage-3 evaluation point `xtmp[i] = x[i] + 0.75*h*dxdt2[i]`. -/
def stage3State (s : StepState) : Vec := fun i => s.x i + 0.75 * s.h * dxdt2v s i

/-- Stage-3 derivative `dxdt3`, evaluated at `t + 0.75*h`. -/
def dxdt3v (s : StepState) : Vec := rhs (s.t + 0.75 * s.h) (stage3State s) zeroVec

/-- The stage-4 evaluation point
`xtmp[i] = x[i] + (1/9)*h*(2*dxdt1[i] + 3*dxdt2[i] + 4*dxdt3[i])`. -/
def stage4State (s : StepState) : Vec := fun i =>
  s.x i + 1.0 / 9.0 * s.h * (2.0 * s.dxdt1 i + 3.0 * dxdt2v s i + 4.0 * dxdt3v s i)

/-- Stage-4 derivative `dxdt4`, evaluated at `t + h`. -/
def dxdt4v (s : StepState) : Vec := rhs (s.t + s.h) (stage4State s) zeroVec

/-- The proposed next state, written back into `xtmp` by the error loop:
`x[i] + h/24*(7*dxdt1[i] + 6*dxdt2[i] + 8*dxdt3[i] + 3*dxdt4[i])`. -/
def proposedState (s : StepState) : Vec := fun i =>
  s.x i + s.h / 24.0 *
    (7.0 * s.dxdt1 i + 6.0 * dxdt2v s i + 8.0 * dxdt3v s i + 3.0 * dxdt4v s i)

/-- Per-component local error `erri` of the error loop. -/
def errComp (s : StepState) (i : Species) : ℝ :=
  |s.h * (5.0 / 72.0 * s.dxdt1 i - 1.0 / 12.0 * dxdt2v s i -
      1.0 / 9.0 * dxdt3v s i + 1.0 / 8.0 * dxdt4v s i)| / tolerance

/-- `errMax`: running maximum of the error loop, starting from `0.0` and
taking each component in index order. -/
def errMax (s : StepState) : ℝ :=
  speciesList.foldl (fun m i => if errComp s i > m then errComp s i else m) 0

/-- The step-size factor `fct`. -/
def fct (s : StepState) : ℝ :=
  if errMax s > 0 then kdSafety / errMax s ^ ((1 : ℝ) / 3) else kdGrowMax

/-- Step size after the rejection branch:
`if (fct < kdShrinkMax) h *= kdShrinkMax; else h *= fct;`. -/
def shrinkH (s : StepState) : ℝ :=
  if fct s < kdShrinkMax then s.h * kdShrinkMax else s.h * fct s

/-- Step size after the acceptance branch:
`if (fct > kdGrowMax) h *= kdGrowMax; else h *= fct;`. -/
def growH (s : StepState) : ℝ :=
  if fct s > kdGrowMax then s.h * kdGrowMax else s.h * fct s

/-- Outcome of one stepper call: `accepted`/`rejected` are the two normal
returns (`true`/`false`), `underflow` is the thrown step-size-underflow
exception. -/
inductive StepOutcome where
  | accepted
  | rejected
  | underflow
  deriving DecidableEq

/-- One call of `bogackiShampineStepper`: returns the outcome together with
the final values of the four by-reference parameters (on the thrown
`underflow` the step size has already been shrunk). -/
def bogackiShampineStepper (s : StepState) : StepOutcome × StepState :=
  if errMax s > 1 then
    if shrinkH s < kdMinH then (.underflow, { s with h := shrinkH s })
    else (.rejected, { s with h := shrinkH s })
  else
    (.accepted, ⟨s.t + s.h, proposedState s, dxdt4v s, growH s⟩)

/-! ### The integration driver (`main`'s loop) -/

/-- The driver's per-iteration state: the stepper's four quantities plus the
next-sample threshold `tsav`. -/
structure LoopState where
  t : ℝ
  x : Vec
  dxdt1 : Vec
  dt : ℝ
  tsav : ℝ

/-- One iteration of the integration loop: call the stepper (aborting the
run on the underflow exception, hence `none`), then emit a `(t, x)` sample
if `t > tsav` and advance `tsav` by `dtsav`. -/
def driverIter (s : LoopState) : Option (LoopState × Option (ℝ × Vec)) :=
  if (bogackiShampineStepper ⟨s.t, s.x, s.dxdt1, s.dt⟩).1 = .underflow then none
  else if (bogackiShampineStepper ⟨s.t, s.x, s.dxdt1, s.dt⟩).2.t > s.tsav then
    some (⟨(bogackiShampineStepper ⟨s.t, s.x, s.dxdt1, s.dt⟩).2.t,
           (bogackiShampineStepper ⟨s.t, s.x, s.dxdt1, s.dt⟩).2.x,
           (bogackiShampineStepper ⟨s.t, s.x, s.dxdt1, s.dt⟩).2.dxdt1,
           (bogackiShampineStepper ⟨s.t, s.x, s.dxdt1, s.dt⟩).2.h,
           s.tsav + dtsav⟩,
          some ((bogackiShampineStepper ⟨s.t, s.x, s.dxdt1, s.dt⟩).2.t,
                (bogackiShampineStepper ⟨s.t, s.x, s.dxdt1, s.dt⟩).2.x))
  else
    some (⟨(bogackiShampineStepper ⟨s.t, s.x, s.dxdt1, s.dt⟩).2.t,
           (bogackiShampineStepper ⟨s.t, s.x, s.dxdt1, s.dt⟩).2.x,
           (bogackiShampineStepper ⟨s.t, s.x, s.dxdt1, s.dt⟩).2.dxdt1,
           (bogackiShampineStepper ⟨s.t, s.x, s.dxdt1, s.dt⟩).2.h,
           s.tsav⟩, none)

/-- The samples emitted during (at most) `n` iterations of the integration
loop started at `s`; the loop stops when `t < tEnd` fails or the stepper
throws. -/
def driverRun : ℕ → LoopState → List (ℝ × Vec)
  | 0, _ => []
  | n + 1, s =>
    if s.t < tEnd then
      match driverIter s with
      | none => []
      | some (s2, none) => driverRun n s2
      | some (s2, some smp) => smp :: driverRun n s2
    else []

/-! ### Concrete vectors used by witnesses and counterexamples -/

/-- The all-ones state vector. -/
def oneVec : Vec := fun _ => 1

/-- A state with a single nonzero entry `Fnewactin = 1`; under the model
dynamics only the linear `Fnewactin → Factin → Gactin` chain is active. -/
def c2x0 : Vec := fun s => match s with | .Fnewactin => 1 | _ => 0

/-- The stepper input of the FSAL counterexample: `t = 0`, state `c2x0`,
`dxdt1` freshly evaluated (as `main` does before the loop), `h = 1`. -/
def c2s0 : StepState := ⟨0, c2x0, rhs 0 c2x0 zeroVec, 1⟩

/-- Stage-1 derivative at `c2x0` (exact rationals). -/
def c2k1 : Vec := fun s =>
  match s with
  | .Fnewactin => -(1 / 1000)
  | .Factin => 1 / 1000
  | _ => 0

/-- Stage-2 evaluation point for `c2s0`. -/
def c2x2 : Vec := fun s =>
  match s with
  | .Fnewactin => 1999 / 2000
  | .Factin => 1 / 2000
  | _ => 0

/-- Stage-2 derivative for `c2s0`. -/
def c2k2 : Vec := fun s =>
  match s with
  | .Fnewactin => -(1999 / 2000000)
  | .Factin => 1889 / 2000000
  | .Gactin => 11 / 200000
  | _ => 0

/-- Stage-3 evaluation point for `c2s0`. -/
def c2x3 : Vec := fun s =>
  match s with
  | .Fnewactin => 7994003 / 8000000
  | .Factin => 5667 / 8000000
  | .Gactin => 33 / 800000
  | _ => 0

/-- Stage-3 derivative for `c2s0`. -/
def c2k3 : Vec := fun s =>
  match s with
  | .Fnewactin => -(7994003 / 8000000000)
  | .Factin => 7370633 / 8000000000
  | .Gactin => 62337 / 800000000
  | _ => 0

/-- Stage-4 evaluation point for `c2s0`. -/
def c2x4 : Vec := fun s =>
  match s with
  | .Fnewactin => 17982008997 / 18000000000
  | .Factin => 17037633 / 18000000000
  | .Gactin => 10593 / 200000000
  | _ => 0

/-- Stage-4 derivative for `c2s0`. -/
def c2k4 : Vec := fun s =>
  match s with
  | .Fnewactin => -(17982008997 / 18000000000000)
  | .Factin => 16107869367 / 18000000000000
  | .Gactin => 187413963 / 1800000000000
  | _ => 0

/-- A state with a single large entry `Fnewactin = 100000`, built to make
the stepper reject. -/
def xBig : Vec := fun s => match s with | .Fnewactin => 100000 | _ => 0

/-- Stepper input with `h = 1` at `xBig`: rejected with a shrink capped at
`kdShrinkMax`. -/
def sR1 : StepState := ⟨1, xBig, zeroVec, 1⟩

/-- Stepper input reached after the first rejection (`h = 1 * kdShrinkMax`). -/
def sR2 : StepState := ⟨1, xBig, zeroVec, 1 * kdShrinkMax⟩

/-- Loop state for the duplicate-sample counterexample: the step overshot
the sampling threshold (`t = 1 > tsav = 0`) and the next two stepper calls
both reject. -/
def s9 : LoopState := ⟨1, xBig, zeroVec, 1, 0⟩

/-- Zero-state stepper input: every derivative vanishes, so the step is
accepted with `errMax = 0`. -/
def sZero : StepState := ⟨0, zeroVec, zeroVec, dt0⟩

/-- The loop state after the first iteration from `s9`: the rejected step
shrank `dt`, the emission advanced `tsav`. -/
def s9b : LoopState := ⟨1, xBig, zeroVec, 1 * kdShrinkMax, 0 + dtsav⟩

/-- The conjunction of all saturating/rational denominators appearing in
the five evaluator layers, evaluated at state `x`, each required nonzero.
The last Rho/myosin group includes the constant `1 + RhoGEF` denominator of
`rhoV1` as written in the source. -/
def denomsNonzero (x : Vec) : Prop :=
  (4.0 : ℝ) ^ 4 + x .CaCaM ^ 4 ≠ 0 ∧ 10.0 + x .CaMKII ≠ 0 ∧
  3.0 + x .CaMKIIp ≠ 0 ∧ (0.34 : ℝ) ^ 4 + x .CaCaM ^ 4 ≠ 0 ∧
  127.0 + x .CaN ≠ 0 ∧ 4.97 + x .I1 ≠ 0 ∧ 127.0 + x .I1act ≠ 0 ∧
  80.0 + x .PP1 ≠ 0 ∧ 4.97 + x .PP1act ≠ 0 ∧
  1.0 + x .Cdc42GEF ≠ 0 ∧ 1.0 + x .Cdc42GEFact ≠ 0 ∧ 1.0 + x .Cdc42GDP ≠ 0 ∧
  1.0 + x .Cdc42GTP ≠ 0 ∧ 1.0 + x .GAP ≠ 0 ∧ 1.0 + x .GAPact ≠ 0 ∧
  4.97 + x .SSH1 ≠ 0 ∧ 0.34 + x .SSH1act ≠ 0 ∧ 0.3 + x .LIMK ≠ 0 ∧
  4.0 + x .LIMKact ≠ 0 ∧ 4.0 + x .Cofilin ≠ 0 ∧ 4.0 + x .Cofilinact ≠ 0 ∧
  (0.0001 : ℝ) ≠ 0 ∧ 2.0 + x .Arp23act ≠ 0 ∧
  x .Bp ≠ 0 ∧ x .Bp + 10.0 * Real.exp (50.0 / x .Bp) ≠ 0 ∧
  1.0 + (Species.index .RhoGEF : ℝ) ≠ 0 ∧ 1.0 + x .RhoGEFact ≠ 0 ∧
  1.0 + x .RhoGDP ≠ 0 ∧ 1.0 + x .RhoGTP ≠ 0 ∧ 16.0 + x .MyoPpase ≠ 0 ∧
  0.1 + x .MyoPpaseact ≠ 0 ∧ 2.47 + x .MLC ≠ 0 ∧ 16.0 + x .MLCact ≠ 0

end

/-! ### Helper lemmas about the running maximum of the error loop -/

lemma foldlMax_le {f : Species → ℝ} {c : ℝ} :
    ∀ (l : List Species) (init : ℝ), init ≤ c → (∀ i ∈ l, f i ≤ c) →
      l.foldl (fun m i => if f i > m then f i else m) init ≤ c := by
  intro l
  induction l with
  | nil => intro init h _; simpa using h
  | cons a l ih =>
    intro init hinit hall
    simp only [List.foldl_cons]
    refine ih _ ?_ fun i hi => hall i (List.mem_cons_of_mem _ hi)
    by_cases hfa : f a > init
    · simpa [hfa] using hall a (List.mem_cons_self _ _)
    · simpa [hfa] using hinit

lemma le_foldlMax_init {f : Species → ℝ} :
    ∀ (l : List Species) (init : ℝ),
      init ≤ l.foldl (fun m i => if f i > m then f i else m) init := by
  intro l
  induction l with
  | nil => intro init; simp
  | cons a l ih =>
    intro init
    simp only [List.foldl_cons]
    refine le_trans ?_ (ih _)
    by_cases hfa : f a > init
    · simp [hfa, le_of_lt hfa]
    · simp [hfa]

lemma le_foldlMax_of_mem {f : Species → ℝ} {j : Species} :
    ∀ (l : List Species) (init : ℝ), j ∈ l →
      f j ≤ l.foldl (fun m i => if f i > m then f i else m) init := by
  intro l
  induction l with
  | nil => intro init h; simp at h
  | cons a l ih =>
    intro init hj
    simp only [List.foldl_cons]
    rcases List.mem_cons.mp hj with hj | hj
    · subst hj
      refine le_trans ?_ (le_foldlMax_init _ _)
      by_cases hfa : f j > init
      · simp [hfa]
      · simp [hfa]; exact le_of_not_lt hfa
    · exact ih _ hj

lemma foldlMax_eq_init_or_mem {f : Species → ℝ} :
    ∀ (l : List Species) (init : ℝ),
      l.foldl (fun m i => if f i > m then f i else m) init = init ∨
        ∃ i ∈ l, l.foldl (fun m i => if f i > m then f i else m) init = f i := by
  intro l
  induction l with
  | nil => intro init; left; rfl
  | cons a l ih =>
    intro init
    simp only [List.foldl_cons]
    rcases ih (if f a > init then f a else init) with h | ⟨i, hi, h⟩
    · by_cases hfa : f a > init
      · right; exact ⟨a, List.mem_cons_self _ _, by rw [h, if_pos hfa]⟩
      · left; rw [h, if_neg hfa]
    · right; exact ⟨i, List.mem_cons_of_mem _ hi, h⟩

lemma mem_speciesList (i : Species) : i ∈ speciesList := by
  cases i <;> simp [speciesList]

lemma tolerance_pos : (0 : ℝ) < tolerance := by norm_num [tolerance]

lemma errComp_nonneg (s : StepState) (i : Species) : 0 ≤ errComp s i :=
  div_nonneg (abs_nonneg _) (le_of_lt tolerance_pos)

lemma errComp_le_errMax (s : StepState) (i : Species) : errComp s i ≤ errMax s :=
  le_foldlMax_of_mem _ _ (mem_speciesList i)

lemma errMax_nonneg (s : StepState) : 0 ≤ errMax s :=
  le_foldlMax_init _ _

lemma errMax_le_of_forall {s : StepState} {c : ℝ} (h0 : 0 ≤ c)
    (h : ∀ i, errComp s i ≤ c) : errMax s ≤ c :=
  foldlMax_le _ _ h0 fun i _ => h i

lemma errMax_eq_some_errComp (s : StepState) : ∃ i, errMax s = errComp s i := by
  rcases foldlMax_eq_init_or_mem (f := fun i => errComp s i) speciesList (0 : ℝ)
    with h | ⟨i, _, h⟩
  · have h0 : errMax s = 0 := h
    have hc := errComp_le_errMax s .Ca
    have hn := errComp_nonneg s .Ca
    exact ⟨.Ca, by rw [h0] at hc ⊢; linarith⟩
  · exact ⟨i, h⟩

/-! ### Helper lemmas about the step-size update -/

lemma shrinkH_eq_max (s : StepState) :
    shrinkH s = s.h * max (fct s) kdShrinkMax := by
  rw [shrinkH]
  rcases lt_trichotomy (fct s) kdShrinkMax with h | h | h
  · rw [if_pos h, max_eq_right (le_of_lt h)]
  · rw [if_neg (by rw [h]; exact lt_irrefl _), h, max_self]
  · rw [if_neg (not_lt.mpr (le_of_lt h)), max_eq_left (le_of_lt h)]

lemma growH_eq_min (s : StepState) :
    growH s = s.h * min (fct s) kdGrowMax := by
  rw [growH]
  rcases lt_trichotomy (fct s) kdGrowMax with h | h | h
  · rw [if_neg (not_lt.mpr (le_of_lt h)), min_eq_left (le_of_lt h)]
  · rw [if_neg (by rw [h]; exact lt_irrefl _), h, min_self]
  · rw [if_pos h, min_eq_right (le_of_lt h)]

lemma fct_pos (s : StepState) : 0 < fct s := by
  rw [fct]
  split
  · exact div_pos (by norm_num [kdSafety])
      (Real.rpow_pos_of_pos (by assumption) _)
  · norm_num [kdGrowMax]

lemma cubeRoot_gt_nine {a : ℝ} (ha : 729 < a) : 9 < a ^ ((1 : ℝ) / 3) := by
  have h9 : (9 : ℝ) = (729 : ℝ) ^ ((1 : ℝ) / 3) := by
    rw [show (729 : ℝ) = 9 ^ (3 : ℕ) by norm_num, ← Real.rpow_natCast (9 : ℝ) 3,
      ← Real.rpow_mul (by norm_num)]
    norm_num
  rw [h9]
  exact Real.rpow_lt_rpow (by norm_num) ha (by norm_num)

lemma fct_lt_shrink {s : StepState} (h729 : 729 < errMax s) :
    fct s < kdShrinkMax := by
  have hpos : errMax s > 0 := lt_trans (by norm_num) h729
  rw [fct, if_pos hpos, kdSafety, kdShrinkMax]
  have hc : 9 < errMax s ^ ((1 : ℝ) / 3) := cubeRoot_gt_nine h729
  rw [div_lt_iff₀ (lt_trans (by norm_num) hc)]
  nlinarith

/-! ### Helper lemmas about the derivative evaluator -/

lemma rhs_Fnewactin (t : ℝ) (x d : Vec) :
    rhs t x d .Fnewactin = -(0.001 * x .Fnewactin) := by
  simp [rhs, rhsActin, actinV1]

lemma rhs_congr {t1 t2 : ℝ} {x1 x2 : Vec} (ht : t1 = t2)
    (hx : ∀ i, x1 i = x2 i) (d : Vec) : rhs t1 x1 d = rhs t2 x2 d := by
  rw [ht, show x1 = x2 from funext hx]

lemma rhs_zero_of {x : Vec} (hx : ∀ i, x i = 0) (t : ℝ) (d : Vec) :
    ∀ s, rhs t x d s = 0 := by
  intro s
  cases s <;>
    simp [rhs, rhsActin, rhsCofilin, rhsArp23, rhsCaMKII, camkiiV1, camkiiV2,
      camkiiV3, camkiiV4, camkiiV5, camkiiV6, camkiiV7, camkiiV8, camkiiV9,
      camkiiV10, camkiiV11, camkiiV12, arpV1, arpV2, arpV3, arpV4, arpV5,
      arpV6, arpV7, arpV8, cofV1, cofV2, cofV3, cofV4, cofV5, cofV6, fsev,
      fnuc, vmb, actinV1, actinV2, actinV3, actinV4, actinV5, rhoV1, rhoV2,
      rhoV3, rhoV4, rhoV5, rhoV6, rhoV7, rhoV8, rhoV9, hx]

/-! ### The FSAL counterexample state: exact values of the four stages -/

lemma c2_k1 (t : ℝ) (d : Vec) : rhs t c2x0 d = c2k1 := by
  funext s
  cases s <;>
    simp [rhs, rhsActin, rhsCofilin, rhsArp23, rhsCaMKII, camkiiV1, camkiiV2,
      camkiiV3, camkiiV4, camkiiV5, camkiiV6, camkiiV7, camkiiV8, camkiiV9,
      camkiiV10, camkiiV11, camkiiV12, arpV1, arpV2, arpV3, arpV4, arpV5,
      arpV6, arpV7, arpV8, cofV1, cofV2, cofV3, cofV4, cofV5, cofV6, fsev,
      fnuc, vmb, actinV1, actinV2, actinV3, actinV4, actinV5, rhoV1, rhoV2,
      rhoV3, rhoV4, rhoV5, rhoV6, rhoV7, rhoV8, rhoV9, c2x0, c2k1] <;>
    norm_num

lemma c2_dxdt1 : c2s0.dxdt1 = c2k1 := c2_k1 0 zeroVec

lemma c2_x2 : stage2State c2s0 = c2x2 := by
  funext s
  simp only [stage2State, c2_dxdt1]
  cases s <;> simp [c2s0, c2x0, c2k1, c2x2] <;> norm_num

lemma c2_k2 (t : ℝ) (d : Vec) : rhs t c2x2 d = c2k2 := by
  funext s
  cases s <;>
    simp [rhs, rhsActin, rhsCofilin, rhsArp23, rhsCaMKII, camkiiV1, camkiiV2,
      camkiiV3, camkiiV4, camkiiV5, camkiiV6, camkiiV7, camkiiV8, camkiiV9,
      camkiiV10, camkiiV11, camkiiV12, arpV1, arpV2, arpV3, arpV4, arpV5,
      arpV6, arpV7, arpV8, cofV1, cofV2, cofV3, cofV4, cofV5, cofV6, fsev,
      fnuc, vmb, actinV1, actinV2, actinV3, actinV4, actinV5, rhoV1, rhoV2,
      rhoV3, rhoV4, rhoV5, rhoV6, rhoV7, rhoV8, rhoV9, c2x2, c2k2] <;>
    norm_num

lemma c2_dxdt2 : dxdt2v c2s0 = c2k2 := by rw [dxdt2v, c2_x2, c2_k2]

lemma c2_x3 : stage3State c2s0 = c2x3 := by
  funext s
  simp only [stage3State, c2_dxdt2]
  cases s <;> simp [c2s0, c2x0, c2k2, c2x3] <;> norm_num

lemma c2_k3 (t : ℝ) (d : Vec) : rhs t c2x3 d = c2k3 := by
  funext s
  cases s <;>
    simp [rhs, rhsActin, rhsCofilin, rhsArp23, rhsCaMKII, camkiiV1, camkiiV2,
      camkiiV3, camkiiV4, camkiiV5, camkiiV6, camkiiV7, camkiiV8, camkiiV9,
      camkiiV10, camkiiV11, camkiiV12, arpV1, arpV2, arpV3, arpV4, arpV5,
      arpV6, arpV7, arpV8, cofV1, cofV2, cofV3, cofV4, cofV5, cofV6, fsev,
      fnuc, vmb, actinV1, actinV2, actinV3, actinV4, actinV5, rhoV1, rhoV2,
      rhoV3, rhoV4, rhoV5, rhoV6, rhoV7, rhoV8, rhoV9, c2x3, c2k3] <;>
    norm_num

lemma c2_dxdt3 : dxdt3v c2s0 = c2k3 := by rw [dxdt3v, c2_x3, c2_k3]

lemma c2_x4 : stage4State c2s0 = c2x4 := by
  funext s
  simp only [stage4State, c2_dxdt1, c2_dxdt2, c2_dxdt3]
  cases s <;> simp [c2s0, c2x0, c2k1, c2k2, c2k3, c2x4] <;> norm_num

lemma c2_k4 (t : ℝ) (d : Vec) : rhs t c2x4 d = c2k4 := by
  funext s
  cases s <;>
    simp [rhs, rhsActin, rhsCofilin, rhsArp23, rhsCaMKII, camkiiV1, camkiiV2,
      camkiiV3, camkiiV4, camkiiV5, camkiiV6, camkiiV7, camkiiV8, camkiiV9,
      camkiiV10, camkiiV11, camkiiV12, arpV1, arpV2, arpV3, arpV4, arpV5,
      arpV6, arpV7, arpV8, cofV1, cofV2, cofV3, cofV4, cofV5, cofV6, fsev,
      fnuc, vmb, actinV1, actinV2, actinV3, actinV4, actinV5, rhoV1, rhoV2,
      rhoV3, rhoV4, rhoV5, rhoV6, rhoV7, rhoV8, rhoV9, c2x4, c2k4] <;>
    norm_num

lemma c2_dxdt4 : dxdt4v c2s0 = c2k4 := by rw [dxdt4v, c2_x4, c2_k4]

lemma c2_errComp_le (i : Species) : errComp c2s0 i ≤ 1 := by
  rw [errComp, div_le_one tolerance_pos, abs_le]
  simp only [c2_dxdt1, c2_dxdt2, c2_dxdt3, c2_dxdt4]
  cases i <;> constructor <;>
    simp [c2s0, c2k1, c2k2, c2k3, c2k4, tolerance] <;> norm_num

lemma c2_errMax_le : errMax c2s0 ≤ 1 :=
  errMax_le_of_forall (by norm_num) c2_errComp_le

lemma c2_step : bogackiShampineStepper c2s0 =
    (.accepted, ⟨c2s0.t + c2s0.h, proposedState c2s0, dxdt4v c2s0, growH c2s0⟩) := by
  rw [bogackiShampineStepper, if_neg (not_lt.mpr c2_errMax_le)]

/-! ### The rejected-step states `sR1`, `sR2` and the zero state -/

lemma sR1_dxdt2_Fn : dxdt2v sR1 .Fnewactin = -100 := by
  rw [dxdt2v, rhs_Fnewactin]
  simp [stage2State, sR1, xBig, zeroVec]
  norm_num

lemma sR1_dxdt3_Fn : dxdt3v sR1 .Fnewactin = -(3997 / 40) := by
  rw [dxdt3v, rhs_Fnewactin]
  simp only [stage3State]
  rw [sR1_dxdt2_Fn]
  norm_num [sR1, xBig]

lemma sR1_dxdt4_Fn : dxdt4v sR1 .Fnewactin = -(8993003 / 90000) := by
  rw [dxdt4v, rhs_Fnewactin]
  simp only [stage4State]
  rw [sR1_dxdt2_Fn, sR1_dxdt3_Fn]
  have hv : sR1.dxdt1 Species.Fnewactin = 0 := rfl
  rw [hv]
  norm_num [sR1, xBig]

lemma sR1_errComp_gt : 729 < errComp sR1 .Fnewactin := by
  rw [errComp, sR1_dxdt2_Fn, sR1_dxdt3_Fn, sR1_dxdt4_Fn]
  have hv : sR1.dxdt1 .Fnewactin = 0 := rfl
  rw [hv]
  have hh : sR1.h = 1 := rfl
  rw [hh, tolerance]
  rw [abs_of_nonneg (by norm_num)]
  norm_num

lemma sR1_errMax_gt : 729 < errMax sR1 :=
  lt_of_lt_of_le sR1_errComp_gt (errComp_le_errMax sR1 .Fnewactin)

lemma sR2_dxdt2_Fn : dxdt2v sR2 .Fnewactin = -100 := by
  rw [dxdt2v, rhs_Fnewactin]
  simp [stage2State, sR2, xBig, zeroVec]
  norm_num

lemma sR2_dxdt3_Fn : dxdt3v sR2 .Fnewactin = -(199985 / 2000) := by
  rw [dxdt3v, rhs_Fnewactin]
  simp only [stage3State]
  rw [sR2_dxdt2_Fn]
  norm_num [sR2, xBig, kdShrinkMax]

lemma sR2_dxdt4_Fn : dxdt4v sR2 .Fnewactin = -(899930003 / 9000000) := by
  rw [dxdt4v, rhs_Fnewactin]
  simp only [stage4State]
  rw [sR2_dxdt2_Fn, sR2_dxdt3_Fn]
  have hv : sR2.dxdt1 Species.Fnewactin = 0 := rfl
  rw [hv]
  norm_num [sR2, xBig, kdShrinkMax]

lemma sR2_errComp_gt : 729 < errComp sR2 .Fnewactin := by
  rw [errComp, sR2_dxdt2_Fn, sR2_dxdt3_Fn, sR2_dxdt4_Fn]
  have hv : sR2.dxdt1 .Fnewactin = 0 := rfl
  rw [hv]
  have hh : sR2.h = 1 * kdShrinkMax := rfl
  rw [hh, tolerance, kdShrinkMax]
  rw [abs_of_nonneg (by norm_num)]
  norm_num

lemma sR2_errMax_gt : 729 < errMax sR2 :=
  lt_of_lt_of_le sR2_errComp_gt (errComp_le_errMax sR2 .Fnewactin)

lemma sZero_stage2 : ∀ i, stage2State sZero i = 0 := by
  intro i; simp [stage2State, sZero, zeroVec]

lemma sZero_dxdt2 : ∀ i, dxdt2v sZero i = 0 := fun i =>
  rhs_zero_of sZero_stage2 _ _ i

lemma sZero_stage3 : ∀ i, stage3State sZero i = 0 := by
  intro i
  simp only [stage3State]
  rw [sZero_dxdt2 i]
  simp [sZero, zeroVec]

lemma sZero_dxdt3 : ∀ i, dxdt3v sZero i = 0 := fun i =>
  rhs_zero_of sZero_stage3 _ _ i

lemma sZero_stage4 : ∀ i, stage4State sZero i = 0 := by
  intro i
  simp only [stage4State]
  rw [sZero_dxdt2 i, sZero_dxdt3 i]
  simp [sZero, zeroVec]

lemma sZero_dxdt4 : ∀ i, dxdt4v sZero i = 0 := fun i =>
  rhs_zero_of sZero_stage4 _ _ i

lemma sZero_errComp (i : Species) : errComp sZero i ≤ 1 := by
  rw [errComp, sZero_dxdt2 i, sZero_dxdt3 i, sZero_dxdt4 i]
  have h1 : sZero.dxdt1 i = 0 := rfl
  rw [h1]
  simp [tolerance]

lemma sZero_errMax_le : errMax sZero ≤ 1 :=
  errMax_le_of_forall (by norm_num) sZero_errComp

/-! ### The two rejected stepper calls and the duplicate-sample run -/

lemma sR1_shrinkH : shrinkH sR1 = 1 * kdShrinkMax := by
  rw [shrinkH, if_pos (fct_lt_shrink sR1_errMax_gt)]
  rfl

lemma step_sR1 : bogackiShampineStepper sR1 =
    (.rejected, ⟨1, xBig, zeroVec, 1 * kdShrinkMax⟩) := by
  have h1 : errMax sR1 > 1 := lt_trans (by norm_num) sR1_errMax_gt
  rw [bogackiShampineStepper, if_pos h1, sR1_shrinkH,
    if_neg (by norm_num [kdShrinkMax, kdMinH])]
  rfl

lemma sR2_shrinkH : shrinkH sR2 = 1 * kdShrinkMax * kdShrinkMax := by
  rw [shrinkH, if_pos (fct_lt_shrink sR2_errMax_gt)]
  rfl

lemma step_sR2 : bogackiShampineStepper sR2 =
    (.rejected, ⟨1, xBig, zeroVec, 1 * kdShrinkMax * kdShrinkMax⟩) := by
  have h1 : errMax sR2 > 1 := lt_trans (by norm_num) sR2_errMax_gt
  rw [bogackiShampineStepper, if_pos h1, sR2_shrinkH,
    if_neg (by norm_num [kdShrinkMax, kdMinH])]
  rfl

lemma driverIter_s9 : driverIter s9 = some (s9b, some ((1 : ℝ), xBig)) := by
  have hs : (⟨s9.t, s9.x, s9.dxdt1, s9.dt⟩ : StepState) = sR1 := rfl
  rw [driverIter, hs, step_sR1]
  norm_num [s9, s9b]
  intro h
  exact StepOutcome.noConfusion h

lemma driverIter_s9b : driverIter s9b =
    some (⟨1, xBig, zeroVec, 1 * kdShrinkMax * kdShrinkMax, 0 + dtsav + dtsav⟩,
      some ((1 : ℝ), xBig)) := by
  have hs : (⟨s9b.t, s9b.x, s9b.dxdt1, s9b.dt⟩ : StepState) = sR2 := rfl
  rw [driverIter, hs, step_sR2]
  norm_num [s9b, dtsav]
  intro h
  exact StepOutcome.noConfusion h

lemma driverRun_s9 : driverRun 2 s9 = [((1 : ℝ), xBig), ((1 : ℝ), xBig)] := by
  have h1 : driverRun 2 s9 = (1, xBig) :: driverRun 1 s9b := by
    show driverRun (1 + 1) s9 = _
    rw [driverRun, if_pos (by norm_num [s9, tEnd] : s9.t < tEnd), driverIter_s9]
  have h2 : driverRun 1 s9b = [((1 : ℝ), xBig)] := by
    show driverRun (0 + 1) s9b = _
    rw [driverRun, if_pos (by norm_num [s9b, tEnd] : s9b.t < tEnd), driverIter_s9b]
    rfl
  rw [h1, h2]

/-! ### Monotonicity of time along the integration loop -/

lemma fct_nonneg (s : StepState) : 0 ≤ fct s := le_of_lt (fct_pos s)

lemma stepper_t_mono (s : StepState) (hh : 0 ≤ s.h) :
    s.t ≤ ((bogackiShampineStepper s).2).t := by
  rw [bogackiShampineStepper]
  split_ifs <;> simp <;> linarith

lemma stepper_h_nonneg (s : StepState) (hh : 0 ≤ s.h) :
    0 ≤ ((bogackiShampineStepper s).2).h := by
  rw [bogackiShampineStepper]
  split_ifs <;> simp [shrinkH_eq_max, growH_eq_min]
  · exact mul_nonneg hh (le_trans (by norm_num [kdShrinkMax]) (le_max_right _ _))
  · exact mul_nonneg hh (le_trans (by norm_num [kdShrinkMax]) (le_max_right _ _))
  · exact mul_nonneg hh (le_min (fct_nonneg s) (by norm_num [kdGrowMax]))

lemma driverRun_succ_eq (n : ℕ) (s : LoopState) :
    driverRun (n + 1) s =
      if s.t < tEnd then
        if (bogackiShampineStepper ⟨s.t, s.x, s.dxdt1, s.dt⟩).1 = .underflow then
          []
        else if (bogackiShampineStepper ⟨s.t, s.x, s.dxdt1, s.dt⟩).2.t > s.tsav then
          ((bogackiShampineStepper ⟨s.t, s.x, s.dxdt1, s.dt⟩).2.t,
            (bogackiShampineStepper ⟨s.t, s.x, s.dxdt1, s.dt⟩).2.x) ::
            driverRun n ⟨(bogackiShampineStepper ⟨s.t, s.x, s.dxdt1, s.dt⟩).2.t,
              (bogackiShampineStepper ⟨s.t, s.x, s.dxdt1, s.dt⟩).2.x,
              (bogackiShampineStepper ⟨s.t, s.x, s.dxdt1, s.dt⟩).2.dxdt1,
              (bogackiShampineStepper ⟨s.t, s.x, s.dxdt1, s.dt⟩).2.h,
              s.tsav + dtsav⟩
        else
          driverRun n ⟨(bogackiShampineStepper ⟨s.t, s.x, s.dxdt1, s.dt⟩).2.t,
            (bogackiShampineStepper ⟨s.t, s.x, s.dxdt1, s.dt⟩).2.x,
            (bogackiShampineStepper ⟨s.t, s.x, s.dxdt1, s.dt⟩).2.dxdt1,
            (bogackiShampineStepper ⟨s.t, s.x, s.dxdt1, s.dt⟩).2.h,
            s.tsav⟩
      else [] := by
  rw [driverRun, driverIter]
  split_ifs <;> rfl

lemma driverRun_time_lb : ∀ (n : ℕ) (s : LoopState), 0 ≤ s.dt →
    ∀ p ∈ driverRun n s, s.t ≤ p.1 := by
  intro n
  induction n with
  | zero => intro s _ p hp; simp [driverRun] at hp
  | succ n ih =>
    intro s hdt p hp
    rw [driverRun_succ_eq] at hp
    by_cases ht : s.t < tEnd
    · rw [if_pos ht] at hp
      have hts := stepper_t_mono ⟨s.t, s.x, s.dxdt1, s.dt⟩ hdt
      have hhs := stepper_h_nonneg ⟨s.t, s.x, s.dxdt1, s.dt⟩ hdt
      by_cases hu : (bogackiShampineStepper ⟨s.t, s.x, s.dxdt1, s.dt⟩).1 = .underflow
      · rw [if_pos hu] at hp; simp at hp
      · rw [if_neg hu] at hp
        by_cases hem : (bogackiShampineStepper ⟨s.t, s.x, s.dxdt1, s.dt⟩).2.t > s.tsav
        · rw [if_pos hem] at hp
          rcases List.mem_cons.mp hp with hp | hp
          · rw [hp]; exact hts
          · exact le_trans hts (ih _ hhs p hp)
        · rw [if_neg hem] at hp
          exact le_trans hts (ih _ hhs p hp)
    · rw [if_neg ht] at hp; simp at hp

lemma driverRun_chain_le : ∀ (n : ℕ) (s : LoopState), 0 ≤ s.dt →
    List.Chain' (fun p q : ℝ × Vec => p.1 ≤ q.1) (driverRun n s) := by
  intro n
  induction n with
  | zero => intro s _; simp [driverRun]
  | succ n ih =>
    intro s hdt
    rw [driverRun_succ_eq]
    by_cases ht : s.t < tEnd
    · rw [if_pos ht]
      have hhs := stepper_h_nonneg ⟨s.t, s.x, s.dxdt1, s.dt⟩ hdt
      by_cases hu : (bogackiShampineStepper ⟨s.t, s.x, s.dxdt1, s.dt⟩).1 = .underflow
      · rw [if_pos hu]; exact List.chain'_nil
      · rw [if_neg hu]
        by_cases hem : (bogackiShampineStepper ⟨s.t, s.x, s.dxdt1, s.dt⟩).2.t > s.tsav
        · rw [if_pos hem]
          refine List.chain'_cons'.mpr ⟨?_, ih _ hhs⟩
          intro q hq
          exact driverRun_time_lb n _ hhs q (List.mem_of_mem_head? hq)
        · rw [if_neg hem]
          exact ih _ hhs
    · rw [if_neg ht]; exact List.chain'_nil

lemma c2_proposed_Fn :
    proposedState c2s0 Species.Fnewactin = 143856071973003 / 144000000000000 := by
  simp only [proposedState, c2_dxdt1, c2_dxdt2, c2_dxdt3, c2_dxdt4]
  norm_num [c2s0, c2x0, c2k1, c2k2, c2k3, c2k4]

/-! ## The claims -/

/-- Claim C1: in the Rho/myosin layer the denominator of the first flux is
built from the species index constant `RhoGEF` (value 36, so the denominator
is the constant 37) rather than from the state value `x[RhoGEF]`; at the
all-ones state this differs from the saturating form; the flux feeds the
`RhoGEFact` derivative of the evaluator. -/
theorem claim1_rhoV1_uses_index :
    (∀ x : Vec, rhoV1 x =
      0.01 * x .CaMKIIp * x .RhoGEF / (1.0 + (Species.index .RhoGEF : ℝ))) ∧
    (∀ x : Vec, rhoV1 x = 0.01 * x .CaMKIIp * x .RhoGEF / 37) ∧
    rhoV1 oneVec ≠
      0.01 * oneVec .CaMKIIp * oneVec .RhoGEF / (1.0 + oneVec .RhoGEF) ∧
    (∀ (t : ℝ) (x d : Vec), rhs t x d .RhoGEFact = rhoV1 x - rhoV2 x) := by
  refine ⟨fun x => rfl, fun x => ?_, ?_, fun t x d => by simp [rhs]⟩
  · rw [rhoV1]; norm_num [Species.index]
  · rw [rhoV1]; norm_num [Species.index, oneVec]

/-- Claim C2, counterexample: at the state `c2s0` (only `Fnewactin = 1`,
`h = 1`, `dxdt1` correctly evaluated), the step is accepted, yet the
returned `dxdt1` is not the derivative at the committed state, and the
stage-4 evaluation point differs from the committed state — so the claimed
FSAL invariant fails on an accepted step. -/
theorem claim2_counterexample :
    c2s0.dxdt1 = rhs c2s0.t c2s0.x zeroVec ∧
    (bogackiShampineStepper c2s0).1 = .accepted ∧
    (bogackiShampineStepper c2s0).2.dxdt1 ≠
      rhs (bogackiShampineStepper c2s0).2.t
        (bogackiShampineStepper c2s0).2.x zeroVec ∧
    proposedState c2s0 ≠ stage4State c2s0 := by
  refine ⟨rfl, ?_, ?_, ?_⟩
  · rw [c2_step]
  · rw [c2_step]
    dsimp only
    intro hEq
    have h := congrFun hEq Species.Fnewactin
    rw [c2_dxdt4, rhs_Fnewactin, c2_proposed_Fn] at h
    rw [show c2k4 Species.Fnewactin = -(17982008997 / 18000000000000) from rfl] at h
    norm_num at h
  · intro hEq
    have h := congrFun hEq Species.Fnewactin
    rw [c2_proposed_Fn, c2_x4] at h
    rw [show c2x4 Species.Fnewactin = 17982008997 / 18000000000 from rfl] at h
    norm_num at h

/-- Claim C2, amended: on an accepted step the stepper returns as `dxdt1`
the derivative evaluated at the stage-4 point, and the committed state
differs from the stage-4 point by exactly the per-component local error
term; the two coincide only where that error term vanishes, so the FSAL
reuse is exact only for steps with zero error estimate. -/
theorem claim2_amended (s : StepState)
    (hacc : (bogackiShampineStepper s).1 = .accepted) :
    (bogackiShampineStepper s).2.dxdt1 = rhs (s.t + s.h) (stage4State s) zeroVec ∧
    ∀ i, proposedState s i - stage4State s i =
      s.h * (5.0 / 72.0 * s.dxdt1 i - 1.0 / 12.0 * dxdt2v s i -
        1.0 / 9.0 * dxdt3v s i + 1.0 / 8.0 * dxdt4v s i) := by
  constructor
  · rw [bogackiShampineStepper] at hacc ⊢
    by_cases h1 : errMax s > 1
    · rw [if_pos h1] at hacc
      by_cases h2 : shrinkH s < kdMinH
      · rw [if_pos h2] at hacc; exact StepOutcome.noConfusion hacc
      · rw [if_neg h2] at hacc; exact StepOutcome.noConfusion hacc
    · rw [if_neg h1]; rfl
  · intro i
    rw [proposedState, stage4State]; ring

/-- Claim C2, witness for the amended theorem: the concrete accepted step at
`c2s0` satisfies its conclusion. -/
theorem claim2_amended_witness :
    (bogackiShampineStepper c2s0).1 = .accepted ∧
    ((bogackiShampineStepper c2s0).2.dxdt1 =
        rhs (c2s0.t + c2s0.h) (stage4State c2s0) zeroVec ∧
      ∀ i, proposedState c2s0 i - stage4State c2s0 i =
        c2s0.h * (5.0 / 72.0 * c2s0.dxdt1 i - 1.0 / 12.0 * dxdt2v c2s0 i -
          1.0 / 9.0 * dxdt3v c2s0 i + 1.0 / 8.0 * dxdt4v c2s0 i)) :=
  have hacc : (bogackiShampineStepper c2s0).1 = .accepted := by rw [c2_step]
  ⟨hacc, claim2_amended c2s0 hacc⟩

/-- Claim C3: one stepper call evaluates the derivative at the three
specified stage points, proposes the stated next state, computes each error
component by the stated formula and `errMax` as their maximum over all
`nvar = 46` components, and sets `fct = kdSafety/errMax^(1/3)` when
`errMax > 0` and `fct = kdGrowMax` otherwise. -/
theorem claim3_stepper_stages (s : StepState) :
    dxdt2v s = rhs (s.t + s.h / 2) (fun i => s.x i + s.h / 2 * s.dxdt1 i) zeroVec ∧
    dxdt3v s =
      rhs (s.t + 3 * s.h / 4) (fun i => s.x i + 3 * s.h / 4 * dxdt2v s i) zeroVec ∧
    dxdt4v s = rhs (s.t + s.h)
      (fun i => s.x i +
        s.h / 9 * (2 * s.dxdt1 i + 3 * dxdt2v s i + 4 * dxdt3v s i)) zeroVec ∧
    (∀ i, proposedState s i = s.x i +
      s.h / 24 * (7 * s.dxdt1 i + 6 * dxdt2v s i + 8 * dxdt3v s i + 3 * dxdt4v s i)) ∧
    (∀ i, errComp s i =
      |s.h * (5.0 / 72.0 * s.dxdt1 i - 1.0 / 12.0 * dxdt2v s i -
        1.0 / 9.0 * dxdt3v s i + 1.0 / 8.0 * dxdt4v s i)| / tolerance) ∧
    (∀ i, errComp s i ≤ errMax s) ∧
    (∃ i, errMax s = errComp s i) ∧
    speciesList.length = nvar ∧
    fct s = (if 0 < errMax s then kdSafety / errMax s ^ ((1 : ℝ) / 3) else kdGrowMax) := by
  refine ⟨?_, ?_, ?_, fun i => ?_, fun i => rfl, errComp_le_errMax s,
    errMax_eq_some_errComp s, rfl, rfl⟩
  · rw [dxdt2v]
    exact rhs_congr (by ring) (fun i => by simp only [stage2State]; ring) zeroVec
  · rw [dxdt3v]
    exact rhs_congr (by ring) (fun i => by simp only [stage3State]; ring) zeroVec
  · rw [dxdt4v]
    exact rhs_congr (by ring) (fun i => by simp only [stage4State]; ring) zeroVec
  · simp only [proposedState]; ring

/-- Claim C4: for every time, state and buffer, the evaluator's derivative
vector sums to zero on each of the twelve conserved
(species, activated form) pairs, so each sum `A + A*` has zero derivative
along the exact trajectory. -/
theorem claim4_conservation (t : ℝ) (x d : Vec) :
    rhs t x d .CaN + rhs t x d .CaNact = 0 ∧
    rhs t x d .I1 + rhs t x d .I1act = 0 ∧
    rhs t x d .PP1 + rhs t x d .PP1act = 0 ∧
    rhs t x d .Cdc42GEF + rhs t x d .Cdc42GEFact = 0 ∧
    rhs t x d .GAP + rhs t x d .GAPact = 0 ∧
    rhs t x d .SSH1 + rhs t x d .SSH1act = 0 ∧
    rhs t x d .LIMK + rhs t x d .LIMKact = 0 ∧
    rhs t x d .Cofilin + rhs t x d .Cofilinact = 0 ∧
    rhs t x d .RhoGEF + rhs t x d .RhoGEFact = 0 ∧
    rhs t x d .ROCK + rhs t x d .ROCKact = 0 ∧
    rhs t x d .MyoPpase + rhs t x d .MyoPpaseact = 0 ∧
    rhs t x d .MLC + rhs t x d .MLCact = 0 := by
  refine ⟨?_, ?_, ?_, ?_, ?_, ?_, ?_, ?_, ?_, ?_, ?_, ?_⟩ <;>
    simp [rhs, rhsActin, rhsCofilin, rhsArp23, rhsCaMKII] <;> ring

/-- Claim C5: when `errMax > 1` the stepper leaves `t`, `x`, `dxdt1`
unchanged, multiplies `h` by `max (fct, kdShrinkMax)` (so a single
rejection never shrinks past the shrink cap), and does not accept. -/
theorem claim5_reject_frame (s : StepState) (h1 : 1 < errMax s) :
    (bogackiShampineStepper s).2.t = s.t ∧
    (bogackiShampineStepper s).2.x = s.x ∧
    (bogackiShampineStepper s).2.dxdt1 = s.dxdt1 ∧
    (bogackiShampineStepper s).2.h = s.h * max (fct s) kdShrinkMax ∧
    (bogackiShampineStepper s).1 ≠ .accepted := by
  rw [bogackiShampineStepper, if_pos h1]
  by_cases h2 : shrinkH s < kdMinH
  · rw [if_pos h2]
    exact ⟨rfl, rfl, rfl, shrinkH_eq_max s, fun hc => StepOutcome.noConfusion hc⟩
  · rw [if_neg h2]
    exact ⟨rfl, rfl, rfl, shrinkH_eq_max s, fun hc => StepOutcome.noConfusion hc⟩

/-- Claim C5, witness: the concrete state `sR1` has `errMax > 1` and the
rejected call mutates only `h`. -/
theorem claim5_witness :
    1 < errMax sR1 ∧
    ((bogackiShampineStepper sR1).2.t = sR1.t ∧
      (bogackiShampineStepper sR1).2.x = sR1.x ∧
      (bogackiShampineStepper sR1).2.dxdt1 = sR1.dxdt1 ∧
      (bogackiShampineStepper sR1).2.h = sR1.h * max (fct sR1) kdShrinkMax ∧
      (bogackiShampineStepper sR1).1 ≠ .accepted) :=
  have h1 : 1 < errMax sR1 := lt_trans (by norm_num) sR1_errMax_gt
  ⟨h1, claim5_reject_frame sR1 h1⟩

/-- Claim C6: the stepper reports the fatal step-size underflow exactly when
a rejection's shrink pushes `h` below `kdMinH`; otherwise it returns
normally with accept or reject. -/
theorem claim6_underflow_iff (s : StepState) :
    (bogackiShampineStepper s).1 = .underflow ↔
      1 < errMax s ∧ s.h * max (fct s) kdShrinkMax < kdMinH := by
  rw [bogackiShampineStepper]
  by_cases h1 : errMax s > 1
  · rw [if_pos h1]
    by_cases h2 : shrinkH s < kdMinH
    · rw [if_pos h2]
      exact ⟨fun _ => ⟨h1, by rw [← shrinkH_eq_max]; exact h2⟩, fun _ => rfl⟩
    · rw [if_neg h2]
      refine ⟨fun hc => StepOutcome.noConfusion hc, fun hc => ?_⟩
      rw [← shrinkH_eq_max] at hc
      exact absurd hc.2 h2
  · rw [if_neg h1]
    exact ⟨fun hc => StepOutcome.noConfusion hc, fun hc => absurd hc.1 h1⟩

/-- Claim C7: when `errMax ≤ 1` the stepper accepts: it commits the proposed
state, advances `t` by `h`, replaces `dxdt1` by the stage-4 derivative, and
multiplies `h` by `min (fct, kdGrowMax)`, so for nonnegative `h` the new
step size never exceeds the old one times the grow cap. -/
theorem claim7_accept (s : StepState) (hle : errMax s ≤ 1) :
    (bogackiShampineStepper s).1 = .accepted ∧
    (bogackiShampineStepper s).2.x = proposedState s ∧
    (bogackiShampineStepper s).2.t = s.t + s.h ∧
    (bogackiShampineStepper s).2.dxdt1 = dxdt4v s ∧
    (bogackiShampineStepper s).2.h = s.h * min (fct s) kdGrowMax ∧
    (0 ≤ s.h → (bogackiShampineStepper s).2.h ≤ s.h * kdGrowMax) := by
  rw [bogackiShampineStepper, if_neg (not_lt.mpr hle)]
  refine ⟨rfl, rfl, rfl, rfl, growH_eq_min s, fun hh => ?_⟩
  show growH s ≤ s.h * kdGrowMax
  rw [growH_eq_min]
  exact mul_le_mul_of_nonneg_left (min_le_right _ _) hh

/-- Claim C7, witness: the zero state is accepted (`errMax = 0 ≤ 1`) and
satisfies all the acceptance conclusions. -/
theorem claim7_witness :
    errMax sZero ≤ 1 ∧
    ((bogackiShampineStepper sZero).1 = .accepted ∧
      (bogackiShampineStepper sZero).2.x = proposedState sZero ∧
      (bogackiShampineStepper sZero).2.t = sZero.t + sZero.h ∧
      (bogackiShampineStepper sZero).2.dxdt1 = dxdt4v sZero ∧
      (bogackiShampineStepper sZero).2.h = sZero.h * min (fct sZero) kdGrowMax ∧
      (0 ≤ sZero.h → (bogackiShampineStepper sZero).2.h ≤ sZero.h * kdGrowMax)) :=
  ⟨sZero_errMax_le, claim7_accept sZero sZero_errMax_le⟩

/-- Claim C8: the evaluator initializes every slot on every call — the
returned derivative vector never depends on the prior contents of the
output buffer, and each accumulated slot (`Factin`, `Gactin`, `Arp23act`)
is the earlier layer's assigned value plus the actin-layer increment. -/
theorem claim8_slots_initialized :
    (∀ (t : ℝ) (x d1 d2 : Vec), rhs t x d1 = rhs t x d2) ∧
    (∀ (t : ℝ) (x d : Vec),
      rhs t x d .Factin = -camkiiV3 x + (actinV1 x - actinV2 x) ∧
      rhs t x d .Gactin = -camkiiV4 x + (actinV2 x - actinV3 x) ∧
      rhs t x d .Arp23act = arpV8 x + -actinV3 x) := by
  constructor
  · intro t x d1 d2
    funext s
    cases s <;> simp [rhs, rhsActin, rhsCofilin, rhsArp23, rhsCaMKII]
  · intro t x d
    refine ⟨?_, ?_, ?_⟩ <;>
      simp [rhs, rhsActin, rhsCofilin, rhsArp23, rhsCaMKII]

/-- Claim C9, counterexample: from the loop state `s9` (reachable emission
logic: `t = 1` already exceeds `tsav = 0` and the next two steps are both
rejected), two consecutive iterations emit samples with equal times, so the
emitted times are not strictly increasing. -/
theorem claim9_counterexample :
    ¬ List.Chain' (fun a b : ℝ => a < b) ((driverRun 2 s9).map Prod.fst) := by
  rw [driverRun_s9]
  norm_num [List.chain'_cons, List.chain'_singleton]

/-- Claim C9, amended: along any iterations of the integration loop started
with a nonnegative step size, the emitted sample times are nondecreasing
(duplicates are possible when a rejected step leaves `t` above the advanced
threshold, so strict increase need not hold). -/
theorem claim9_amended (n : ℕ) (s : LoopState) (hdt : 0 ≤ s.dt) :
    List.Chain' (fun a b : ℝ => a ≤ b) ((driverRun n s).map Prod.fst) := by
  rw [List.chain'_map]
  exact driverRun_chain_le n s hdt

/-- Claim C9, witness for the amended theorem: the duplicate-sample run
itself is nondecreasing. -/
theorem claim9_amended_witness :
    (0 : ℝ) ≤ s9.dt ∧
    List.Chain' (fun a b : ℝ => a ≤ b) ((driverRun 2 s9).map Prod.fst) :=
  ⟨by norm_num [s9], claim9_amended 2 s9 (by norm_num [s9])⟩

/-- Claim C10, counterexample: at the all-zero state the membrane-velocity
term divides `50` by `x[Bp] = 0`, so not every division in the evaluator
has a nonzero denominator. -/
theorem claim10_counterexample : ¬ denomsNonzero zeroVec := by
  intro h
  obtain ⟨-, -, -, -, -, -, -, -, -, -, -, -, -, -, -, -, -, -, -, -, -, -, -,
    hBp, -⟩ := h
  exact hBp rfl

/-- Claim C10, amended: for every state with all components nonnegative and
`x[Bp]` strictly positive, every denominator appearing in the evaluator's
divisions is nonzero (the claim as stated fails at `x[Bp] = 0`). -/
theorem claim10_amended (x : Vec) (hnn : ∀ i, 0 ≤ x i) (hBp : 0 < x .Bp) :
    denomsNonzero x := by
  refine ⟨by positivity, ne_of_gt (by have := hnn .CaMKII; linarith),
    ne_of_gt (by have := hnn .CaMKIIp; linarith), by positivity,
    ne_of_gt (by have := hnn .CaN; linarith),
    ne_of_gt (by have := hnn .I1; linarith),
    ne_of_gt (by have := hnn .I1act; linarith),
    ne_of_gt (by have := hnn .PP1; linarith),
    ne_of_gt (by have := hnn .PP1act; linarith),
    ne_of_gt (by have := hnn .Cdc42GEF; linarith),
    ne_of_gt (by have := hnn .Cdc42GEFact; linarith),
    ne_of_gt (by have := hnn .Cdc42GDP; linarith),
    ne_of_gt (by have := hnn .Cdc42GTP; linarith),
    ne_of_gt (by have := hnn .GAP; linarith),
    ne_of_gt (by have := hnn .GAPact; linarith),
    ne_of_gt (by have := hnn .SSH1; linarith),
    ne_of_gt (by have := hnn .SSH1act; linarith),
    ne_of_gt (by have := hnn .LIMK; linarith),
    ne_of_gt (by have := hnn .LIMKact; linarith),
    ne_of_gt (by have := hnn .Cofilin; linarith),
    ne_of_gt (by have := hnn .Cofilinact; linarith),
    by norm_num,
    ne_of_gt (by have := hnn .Arp23act; linarith),
    ne_of_gt hBp,
    ne_of_gt (by have := Real.exp_pos (50.0 / x .Bp); linarith),
    by norm_num [Species.index],
    ne_of_gt (by have := hnn .RhoGEFact; linarith),
    ne_of_gt (by have := hnn .RhoGDP; linarith),
    ne_of_gt (by have := hnn .RhoGTP; linarith),
    ne_of_gt (by have := hnn .MyoPpase; linarith),
    ne_of_gt (by have := hnn .MyoPpaseact; linarith),
    ne_of_gt (by have := hnn .MLC; linarith),
    ne_of_gt (by have := hnn .MLCact; linarith)⟩

/-- Claim C10, witness for the amended theorem: at the all-ones state the
hypotheses hold, hence all denominators are nonzero. -/
theorem claim10_amended_witness :
    (∀ i, (0 : ℝ) ≤ oneVec i) ∧ (0 : ℝ) < oneVec .Bp ∧ denomsNonzero oneVec :=
  ⟨fun i => by norm_num [oneVec], by norm_num [oneVec],
    claim10_amended oneVec (fun i => by norm_num [oneVec]) (by norm_num [oneVec])⟩
